import Mathlib

/-!
Shallow embedding of the request-middleware chain in `blogs/middleware.py`
(sliding-window IP rate limiter, per-endpoint performance metrics with a
bounded in-memory store, long-request alerting) together with the
admission-control composition described in the design document.

Timestamps (`time.time()` values) are modelled as rationals; the per-client
map `ip_request_counts` (a `defaultdict(list)`) is modelled as a total
function from client identity to its list of recorded instants, with the
empty list as default.
-/

namespace Middleware

/-! ### RateLimitMiddleware (middleware.py, class RateLimitMiddleware) -/

def RATE_LIMIT : Nat := 10

def TIME_WINDOW : ℚ := 60

/-- The rate limiter's mutable state: `self.ip_request_counts`, a
`defaultdict(list)` mapping client identity to recorded timestamps. -/
structure RateLimitState where
  ip_request_counts : String → List ℚ

/-- State built by `RateLimitMiddleware.__init__`: every client maps to `[]`. -/
def initState : RateLimitState := ⟨fun _ => []⟩

/-- The clean-up step of `RateLimitMiddleware.__call__`: keep exactly the
timestamps with `current_time - timestamp < TIME_WINDOW`. -/
def pruneWindow (now : ℚ) (w : List ℚ) : List ℚ :=
  w.filter (fun timestamp => decide (now - timestamp < TIME_WINDOW))

/-- A middleware either returns its own JSON error response or passes the
downstream handler's response through. -/
inductive MiddlewareResponse (α : Type) where
  | jsonError (error : String) (status : Nat)
  | fromHandler (response : α)
deriving DecidableEq

/-- `RateLimitMiddleware._reject`: a JSON response with an error field and
status code 429. -/
def rejectResponse {α : Type} (reason : String) : MiddlewareResponse α :=
  MiddlewareResponse.jsonError reason 429

/-- `RateLimitMiddleware.__call__`: prune the client's window, reject with
429 when the pruned count reaches `RATE_LIMIT`, otherwise record `now` and
invoke the downstream handler. -/
def rateLimitCall {α : Type} (st : RateLimitState) (ip : String) (now : ℚ)
    (get_response : Unit → α) : RateLimitState × MiddlewareResponse α :=
  let pruned := pruneWindow now (st.ip_request_counts ip)
  if RATE_LIMIT ≤ pruned.length then
    (⟨fun c => if c = ip then pruned else st.ip_request_counts c⟩,
      rejectResponse "Rate limit exceeded")
  else
    (⟨fun c => if c = ip then pruned ++ [now] else st.ip_request_counts c⟩,
      MiddlewareResponse.fromHandler (get_response ()))

/-- The per-client admission step (the window of the single client the call
is about, as mutated by `RateLimitMiddleware.__call__`, and whether the
request was admitted). -/
def admitStep (w : List ℚ) (now : ℚ) : List ℚ × Bool :=
  let pruned := pruneWindow now w
  if RATE_LIMIT ≤ pruned.length then (pruned, false) else (pruned ++ [now], true)

/-- Iterate `rateLimitCall` for one client over a list of request instants,
collecting the instants of the admitted requests. -/
def runRequests (ip : String) : RateLimitState → List ℚ → List ℚ
  | _, [] => []
  | st, t :: ts =>
    match rateLimitCall st ip t (fun _ => ()) with
    | (st', MiddlewareResponse.fromHandler _) => t :: runRequests ip st' ts
    | (st', MiddlewareResponse.jsonError _ _) => runRequests ip st' ts

/-- Iterate the per-client admission step over a list of request instants,
collecting the admitted instants. -/
def processTrace : List ℚ → List ℚ → List ℚ
  | _, [] => []
  | w, t :: ts =>
    let pruned := pruneWindow t w
    if RATE_LIMIT ≤ pruned.length then processTrace pruned ts
    else t :: processTrace (pruned ++ [t]) ts

/-- Number of instants of `l` falling in the rolling window of length
`TIME_WINDOW` that ends at `a + TIME_WINDOW` (half-open on the left,
matching the limiter's own window semantics: an instant exactly
`TIME_WINDOW` before the window's end is expired). -/
def countWin (a : ℚ) (l : List ℚ) : Nat :=
  (l.filter (fun s => decide (a < s ∧ s ≤ a + TIME_WINDOW))).length

theorem rateLimitCall_window (st : RateLimitState) (ip : String) (now : ℚ) :
    (rateLimitCall st ip now (fun _ => ())).1.ip_request_counts ip
      = (admitStep (st.ip_request_counts ip) now).1 := by
  unfold rateLimitCall admitStep
  by_cases h : RATE_LIMIT ≤ (pruneWindow now (st.ip_request_counts ip)).length <;>
    simp [h]

theorem runRequests_eq_processTrace (ip : String) :
    ∀ (st : RateLimitState) (ts : List ℚ),
      runRequests ip st ts = processTrace (st.ip_request_counts ip) ts := by
  intro st ts
  induction ts generalizing st with
  | nil => rfl
  | cons t ts ih =>
    unfold runRequests processTrace rateLimitCall rejectResponse
    by_cases h : RATE_LIMIT ≤ (pruneWindow t (st.ip_request_counts ip)).length <;>
      simp [h, ih]

theorem prune_prune (m t : ℚ) (w : List ℚ) (h : m ≤ t) :
    pruneWindow t (pruneWindow m w) = pruneWindow t w := by
  unfold pruneWindow
  rw [List.filter_filter]
  apply List.filter_congr
  intro s _
  by_cases hs : t - s < TIME_WINDOW
  · have hm : m - s < TIME_WINDOW := lt_of_le_of_lt (by linarith) hs
    simp [hs, hm]
  · simp [hs]

theorem prune_self (now : ℚ) : pruneWindow now [now] = [now] := by
  unfold pruneWindow TIME_WINDOW
  norm_num

/-- C1: an Admit call prunes the client's window; when the pruned count has
reached RATE_LIMIT it returns the 429 JSON rejection with error field
"Rate limit exceeded" and records nothing, otherwise it appends `now` to the
client's window and passes the downstream handler's response through
unchanged. -/
theorem rate_limit_admit_decision {α : Type} (st : RateLimitState) (ip : String)
    (now : ℚ) (get_response : Unit → α) :
    (RATE_LIMIT ≤ (pruneWindow now (st.ip_request_counts ip)).length →
      (rateLimitCall st ip now get_response).2
          = MiddlewareResponse.jsonError "Rate limit exceeded" 429 ∧
      (rateLimitCall st ip now get_response).1.ip_request_counts ip
          = pruneWindow now (st.ip_request_counts ip)) ∧
    ((pruneWindow now (st.ip_request_counts ip)).length < RATE_LIMIT →
      (rateLimitCall st ip now get_response).2
          = MiddlewareResponse.fromHandler (get_response ()) ∧
      (rateLimitCall st ip now get_response).1.ip_request_counts ip
          = pruneWindow now (st.ip_request_counts ip) ++ [now]) := by
  constructor
  · intro h
    unfold rateLimitCall rejectResponse
    simp [h]
  · intro h
    have hn : ¬ RATE_LIMIT ≤ (pruneWindow now (st.ip_request_counts ip)).length :=
      Nat.not_le.mpr h
    unfold rateLimitCall
    simp [hn]

theorem rate_limit_admit_decision_witness :
    (RATE_LIMIT ≤ (pruneWindow 100
        ((⟨fun c => if c = "a" then [(50:ℚ), 51, 52, 53, 54, 55, 56, 57, 58, 59] else []⟩ :
          RateLimitState).ip_request_counts "a")).length ∧
      (rateLimitCall
          (⟨fun c => if c = "a" then [(50:ℚ), 51, 52, 53, 54, 55, 56, 57, 58, 59] else []⟩ :
            RateLimitState) "a" 100 (fun _ => (7 : Nat))).2
        = MiddlewareResponse.jsonError "Rate limit exceeded" 429) ∧
    ((pruneWindow 100 (initState.ip_request_counts "a")).length < RATE_LIMIT ∧
      (rateLimitCall initState "a" 100 (fun _ => (7 : Nat))).2
        = MiddlewareResponse.fromHandler 7) :=
  ⟨⟨by norm_num [pruneWindow, TIME_WINDOW, RATE_LIMIT],
    ((rate_limit_admit_decision
        (⟨fun c => if c = "a" then [(50:ℚ), 51, 52, 53, 54, 55, 56, 57, 58, 59] else []⟩ :
          RateLimitState) "a" 100 (fun _ => (7 : Nat))).1
      (by norm_num [pruneWindow, TIME_WINDOW, RATE_LIMIT])).1⟩,
   ⟨by norm_num [pruneWindow, TIME_WINDOW, RATE_LIMIT, initState],
    ((rate_limit_admit_decision initState "a" 100 (fun _ => (7 : Nat))).2
      (by norm_num [pruneWindow, TIME_WINDOW, RATE_LIMIT, initState])).1⟩⟩

/-- C3: a timestamp with `now - timestamp = TIME_WINDOW` is expired: pruning
removes it, so it never appears in the pruned window and contributes nothing
to the count the admission decision is made on. -/
theorem window_boundary_pruned (w : List ℚ) (now ts : ℚ)
    (h : now - ts = TIME_WINDOW) :
    ts ∉ pruneWindow now w ∧ pruneWindow now (w ++ [ts]) = pruneWindow now w := by
  have hts : ¬ now - ts < TIME_WINDOW := by rw [h]; exact lt_irrefl _
  constructor
  · intro hmem
    have := List.of_mem_filter hmem
    simp at this
    exact hts this
  · unfold pruneWindow
    rw [List.filter_append]
    simp [hts]

theorem window_boundary_pruned_witness :
    (60 : ℚ) - 0 = TIME_WINDOW ∧
    (0 : ℚ) ∉ pruneWindow 60 [10, 0] ∧
    pruneWindow 60 ([10, 0] ++ [(0 : ℚ)]) = pruneWindow 60 [10, 0] :=
  ⟨by norm_num [TIME_WINDOW],
   (window_boundary_pruned [10, 0] 60 0 (by norm_num [TIME_WINDOW])).1,
   (window_boundary_pruned [10, 0] 60 0 (by norm_num [TIME_WINDOW])).2⟩

/-- C4: pruning is idempotent (pruning a pruned window at the same `now`
changes nothing), and the window an Admit call leaves behind is untouched by
pruning again at the same `now`, so a second Admit at the same instant
operates on exactly the window the first call left. -/
theorem prune_idempotent (w : List ℚ) (now : ℚ) :
    pruneWindow now (pruneWindow now w) = pruneWindow now w ∧
    pruneWindow now (admitStep w now).1 = (admitStep w now).1 := by
  refine ⟨prune_prune now now w le_rfl, ?_⟩
  unfold admitStep
  by_cases h : RATE_LIMIT ≤ (pruneWindow now w).length
  · simp [h, prune_prune now now w le_rfl]
  · have h2 : pruneWindow now (pruneWindow now w ++ [now])
        = pruneWindow now (pruneWindow now w) ++ pruneWindow now [now] := by
      unfold pruneWindow
      rw [List.filter_append]
    simp [h, h2, prune_prune now now w le_rfl, prune_self]

/-- C5: an Admit call leaves the window of every other client identity
untouched; the state holds nothing but the per-client windows, so the only
mutation is to the calling client's timestamp sequence. -/
theorem rate_limit_frame {α : Type} (st : RateLimitState) (ip c' : String)
    (now : ℚ) (get_response : Unit → α) (h : c' ≠ ip) :
    (rateLimitCall st ip now get_response).1.ip_request_counts c'
      = st.ip_request_counts c' := by
  unfold rateLimitCall
  by_cases hd : RATE_LIMIT ≤ (pruneWindow now (st.ip_request_counts ip)).length <;>
    simp [hd, h]

theorem rate_limit_frame_witness :
    ("b" : String) ≠ "a" ∧
    (rateLimitCall (⟨fun c => if c = "b" then [(1:ℚ)] else []⟩ : RateLimitState)
        "a" 100 (fun _ => (0 : Nat))).1.ip_request_counts "b"
      = (⟨fun c => if c = "b" then [(1:ℚ)] else []⟩ :
          RateLimitState).ip_request_counts "b" :=
  ⟨by decide,
   rate_limit_frame (⟨fun c => if c = "b" then [(1:ℚ)] else []⟩ : RateLimitState)
     "a" "b" 100 (fun _ => (0 : Nat)) (by decide)⟩

theorem prune_append (now : ℚ) (l m : List ℚ) :
    pruneWindow now (l ++ m) = pruneWindow now l ++ pruneWindow now m := by
  unfold pruneWindow
  exact List.filter_append ..

theorem countWin_append (a : ℚ) (l m : List ℚ) :
    countWin a (l ++ m) = countWin a l + countWin a m := by
  unfold countWin
  rw [List.filter_append, List.length_append]

theorem countWin_le_prune (a t : ℚ) (A : List ℚ) (h : t ≤ a + TIME_WINDOW) :
    countWin a A ≤ (pruneWindow t A).length := by
  unfold countWin pruneWindow
  apply List.Sublist.length_le
  apply List.monotone_filter_right
  intro s hs
  simp only [decide_eq_true_eq] at hs ⊢
  obtain ⟨h1, _⟩ := hs
  linarith

theorem processTrace_cons (w : List ℚ) (t : ℚ) (ts : List ℚ) :
    processTrace w (t :: ts)
      = if RATE_LIMIT ≤ (pruneWindow t w).length
        then processTrace (pruneWindow t w) ts
        else t :: processTrace (pruneWindow t w ++ [t]) ts := rfl

theorem admitted_bound (trace : List ℚ) :
    ∀ (A : List ℚ) (m : ℚ), List.Sorted (· ≤ ·) trace → (∀ t ∈ trace, m ≤ t) →
      (∀ b : ℚ, countWin b A ≤ RATE_LIMIT) →
      ∀ a : ℚ, countWin a (A ++ processTrace (pruneWindow m A) trace) ≤ RATE_LIMIT := by
  induction trace with
  | nil =>
    intro A m _ _ hA a
    simpa [processTrace] using hA a
  | cons t ts ih =>
    intro A m hsort hm hA a
    have hmt : m ≤ t := hm t (List.mem_cons_self t ts)
    have hsort' : List.Sorted (· ≤ ·) ts := (List.sorted_cons.mp hsort).2
    have hts : ∀ x ∈ ts, t ≤ x := (List.sorted_cons.mp hsort).1
    have hpp : pruneWindow t (pruneWindow m A) = pruneWindow t A := prune_prune m t A hmt
    by_cases hdec : RATE_LIMIT ≤ (pruneWindow t A).length
    · have hstep : processTrace (pruneWindow m A) (t :: ts)
          = processTrace (pruneWindow t A) ts := by
        rw [processTrace_cons, hpp, if_pos hdec]
      rw [hstep]
      exact ih A t hsort' hts hA a
    · have hstep : processTrace (pruneWindow m A) (t :: ts)
          = t :: processTrace (pruneWindow t A ++ [t]) ts := by
        rw [processTrace_cons, hpp, if_neg hdec]
      have hwin : pruneWindow t (A ++ [t]) = pruneWindow t A ++ [t] := by
        rw [prune_append, prune_self]
      have hA' : ∀ b : ℚ, countWin b (A ++ [t]) ≤ RATE_LIMIT := by
        intro b
        rw [countWin_append]
        by_cases hb : b < t ∧ t ≤ b + TIME_WINDOW
        · have h1 : countWin b [t] = 1 := by
            unfold countWin
            simp [hb.1, hb.2]
          have h2 : countWin b A ≤ (pruneWindow t A).length :=
            countWin_le_prune b t A hb.2
          omega
        · have h1 : countWin b [t] = 0 := by
            unfold countWin
            simp [hb]
          have h2 := hA b
          omega
      have := ih (A ++ [t]) t hsort' hts hA' a
      rw [hwin] at this
      rw [hstep]
      have hassoc : A ++ t :: processTrace (pruneWindow t A ++ [t]) ts
          = (A ++ [t]) ++ processTrace (pruneWindow t A ++ [t]) ts := by
        simp
      rw [hassoc]
      exact this

/-- C2: starting from the limiter's initial state, for every client identity
and every monotonically non-decreasing sequence of request instants, the
number of admitted requests whose instants fall in any rolling
TIME_WINDOW-second interval never exceeds RATE_LIMIT. -/
theorem sliding_window_bound (ip : String) (trace : List ℚ)
    (hsort : List.Sorted (· ≤ ·) trace) (a : ℚ) :
    countWin a (runRequests ip initState trace) ≤ RATE_LIMIT := by
  rw [runRequests_eq_processTrace]
  cases trace with
  | nil => simp [processTrace, countWin, RATE_LIMIT]
  | cons t ts =>
    have h0 : initState.ip_request_counts ip = ([] : List ℚ) := rfl
    rw [h0]
    have hm : ∀ x ∈ t :: ts, t ≤ x := by
      intro x hx
      rcases List.mem_cons.mp hx with h | h
      · exact h ▸ le_rfl
      · exact (List.sorted_cons.mp hsort).1 x h
    have hA : ∀ b : ℚ, countWin b ([] : List ℚ) ≤ RATE_LIMIT := by
      intro b
      simp [countWin, RATE_LIMIT]
    have := admitted_bound (t :: ts) [] t hsort hm hA a
    simpa [pruneWindow, countWin] using this

/-- The design document's particular test trace: 61 requests with 1-second
spacing at instants 0, 1, ..., 60. -/
def witnessTrace : List ℚ :=
  [0, 1, 2, 3, 4, 5, 6, 7, 8, 9, 10, 11, 12, 13, 14, 15, 16, 17, 18, 19, 20,
   21, 22, 23, 24, 25, 26, 27, 28, 29, 30, 31, 32, 33, 34, 35, 36, 37, 38, 39,
   40, 41, 42, 43, 44, 45, 46, 47, 48, 49, 50, 51, 52, 53, 54, 55, 56, 57, 58,
   59, 60]

theorem sliding_window_bound_witness :
    List.Sorted (· ≤ ·) witnessTrace ∧
    countWin 0 (runRequests "1.2.3.4" initState witnessTrace) ≤ RATE_LIMIT :=
  ⟨by decide, sliding_window_bound "1.2.3.4" witnessTrace (by decide) 0⟩

/-! ### RequestPerformanceMiddleware (middleware.py, class RequestPerformanceMiddleware) -/

def max_metrics : Nat := 50

/-- One latency sample, the `metric_data` dict of
`RequestPerformanceMiddleware.__call__`. -/
structure MetricData where
  total_time : ℚ
  db_time : ℚ
  compute_time : ℚ
  timestamp : ℚ
deriving DecidableEq

/-- The module-level `request_metrics` map (`defaultdict(list)`), modelled as
a total function with default `[]`. -/
abbrev MetricStore := String → List MetricData

def emptyMetrics : MetricStore := fun _ => []

/-- The in-memory storage branch of `RequestPerformanceMiddleware.__call__`:
append the sample to the endpoint's list, then when the length exceeds
`max_metrics` delete everything but the last `max_metrics` entries
(`del metrics[:-self.max_metrics]`). -/
def recordMetric (store : MetricStore) (endpoint : String) (m : MetricData) :
    MetricStore :=
  fun k =>
    if k = endpoint then
      let metrics := store endpoint ++ [m]
      if max_metrics < metrics.length then
        metrics.drop (metrics.length - max_metrics)
      else metrics
    else store k

/-- Run a sequence of metric-recording operations against the store, starting
from the module-initial empty store. -/
def runMetrics (ops : List (String × MetricData)) : MetricStore :=
  ops.foldl (fun store op => recordMetric store op.1 op.2) emptyMetrics

/-- All samples ever recorded for key `k`, in recording order. -/
def historyFor (ops : List (String × MetricData)) (k : String) :
    List MetricData :=
  (ops.filter (fun op => decide (op.1 = k))).map Prod.snd

theorem rtake_length (l : List MetricData) (n : Nat) :
    (l.rtake n).length = min n l.length := by
  simp only [List.rtake, List.length_drop]
  omega

theorem record_step (h : List MetricData) (m : MetricData) :
    (if max_metrics < (h.rtake max_metrics ++ [m]).length then
       (h.rtake max_metrics ++ [m]).drop
         ((h.rtake max_metrics ++ [m]).length - max_metrics)
     else h.rtake max_metrics ++ [m])
      = (h ++ [m]).rtake max_metrics := by
  have hm50 : max_metrics = 50 := rfl
  have hlen : (h.rtake max_metrics).length = min max_metrics h.length :=
    rtake_length h max_metrics
  have hlen1 : (h.rtake max_metrics ++ [m]).length
      = min max_metrics h.length + 1 := by
    rw [List.length_append, hlen]
    rfl
  by_cases hL : h.length < max_metrics
  · have hr : h.rtake max_metrics = h := by
      simp only [List.rtake]
      have h0 : h.length - max_metrics = 0 := by omega
      rw [h0, List.drop_zero]
    have hcond : ¬ max_metrics < (h.rtake max_metrics ++ [m]).length := by
      rw [hlen1]
      omega
    rw [if_neg hcond, hr]
    simp only [List.rtake]
    have h0 : (h ++ [m]).length - max_metrics = 0 := by
      rw [List.length_append]
      simp only [List.length_cons, List.length_nil]
      omega
    rw [h0, List.drop_zero]
  · have hcond : max_metrics < (h.rtake max_metrics ++ [m]).length := by
      rw [hlen1]
      omega
    rw [if_pos hcond, hlen1]
    have harith : min max_metrics h.length + 1 - max_metrics = 1 := by omega
    rw [harith]
    have h1le : 1 ≤ (h.rtake max_metrics).length := by
      rw [hlen]
      omega
    rw [List.drop_append_of_le_length h1le]
    simp only [List.rtake, List.drop_drop]
    have hd : h.length - max_metrics + 1 = (h ++ [m]).length - max_metrics := by
      rw [List.length_append]
      simp only [List.length_cons, List.length_nil]
      omega
    rw [hd]
    have hle2 : (h ++ [m]).length - max_metrics ≤ h.length := by
      rw [List.length_append]
      simp only [List.length_cons, List.length_nil]
      omega
    rw [List.drop_append_of_le_length hle2]

/-- C8: after any sequence of metric-recording operations, the in-memory
store holds, for every endpoint key, exactly the last `max_metrics` (50)
samples recorded for that key, and hence never more than 50 samples. -/
theorem metrics_cap_last50 (ops : List (String × MetricData)) (k : String) :
    runMetrics ops k = (historyFor ops k).rtake max_metrics ∧
    (runMetrics ops k).length ≤ max_metrics := by
  have main : ∀ k', runMetrics ops k' = (historyFor ops k').rtake max_metrics := by
    induction ops using List.reverseRecOn with
    | nil =>
      intro k'
      simp [runMetrics, historyFor, emptyMetrics, List.rtake]
    | append_singleton ops op ih =>
      intro k'
      have hfold : runMetrics (ops ++ [op]) = recordMetric (runMetrics ops) op.1 op.2 := by
        simp [runMetrics, List.foldl_append]
      rw [hfold]
      by_cases hk : k' = op.1
      · subst hk
        have hhist : historyFor (ops ++ [op]) op.1 = historyFor ops op.1 ++ [op.2] := by
          simp [historyFor, List.filter_append]
        have hrec : recordMetric (runMetrics ops) op.1 op.2 op.1
            = (if max_metrics < (runMetrics ops op.1 ++ [op.2]).length then
                 (runMetrics ops op.1 ++ [op.2]).drop
                   ((runMetrics ops op.1 ++ [op.2]).length - max_metrics)
               else runMetrics ops op.1 ++ [op.2]) := by
          simp [recordMetric]
        rw [hrec, hhist, ih op.1]
        exact record_step (historyFor ops op.1) op.2
      · have hhist : historyFor (ops ++ [op]) k' = historyFor ops k' := by
          have hne : decide (op.1 = k') = false := by
            simp only [decide_eq_false_iff_not]
            exact fun hc => hk hc.symm
          simp [historyFor, List.filter_append, hne]
        have hrec : recordMetric (runMetrics ops) op.1 op.2 k' = runMetrics ops k' := by
          simp [recordMetric, hk]
        rw [hrec, hhist]
        exact ih k'
  refine ⟨main k, ?_⟩
  rw [main k]
  rw [rtake_length]
  omega

/-- Result of route resolution (`resolve(request.path)`): the view function's
name and the matched route pattern. `none` models `Resolver404`. -/
structure ResolverMatch where
  funcName : String
  route : String
deriving DecidableEq

def skip_methods : List String := ["HEAD", "OPTIONS"]

/-- `RequestPerformanceMiddleware.get_pattern_name`: `none` for skipped
methods and unresolvable paths; feed endpoints are normalized to a single
path. -/
def get_pattern_name (method : String) (resolved : Option ResolverMatch) :
    Option String :=
  if method ∈ skip_methods then none
  else
    match resolved with
    | none => none
    | some rm =>
      if rm.funcName = "feed" then some (method ++ " feed/")
      else some (method ++ " " ++ rm.route)

/-- `RequestPerformanceMiddleware.__call__` (in-memory storage): when the
request maps to an endpoint key, record the timing sample for it; in every
case return the downstream handler's response. The measured wall-clock and
database times are inputs of the model. -/
def perfCall {α : Type} (store : MetricStore) (method : String)
    (resolved : Option ResolverMatch) (get_response : Unit → α)
    (start_time total_time db_time : ℚ) : MetricStore × α :=
  match get_pattern_name method resolved with
  | none => (store, get_response ())
  | some endpoint =>
      (recordMetric store endpoint
        ⟨total_time, db_time, total_time - db_time, start_time⟩,
       get_response ())

/-- C10: for a HEAD or OPTIONS request, or a request whose path resolves to
no route, the performance middleware invokes the downstream handler and
returns its response with the metrics store completely unchanged. -/
theorem perf_skip_no_record {α : Type} (store : MetricStore) (method : String)
    (resolved : Option ResolverMatch) (get_response : Unit → α)
    (start_time total_time db_time : ℚ)
    (h : method = "HEAD" ∨ method = "OPTIONS" ∨ resolved = none) :
    perfCall store method resolved get_response start_time total_time db_time
      = (store, get_response ()) := by
  have hnone : get_pattern_name method resolved = none := by
    rcases h with h | h | h
    · subst h
      have : ("HEAD" : String) ∈ skip_methods := by
        simp [skip_methods]
      simp [get_pattern_name, this]
    · subst h
      have : ("OPTIONS" : String) ∈ skip_methods := by
        simp [skip_methods]
      simp [get_pattern_name, this]
    · subst h
      unfold get_pattern_name
      by_cases hm : method ∈ skip_methods <;> simp [hm]
  unfold perfCall
  rw [hnone]

theorem perf_skip_no_record_witness :
    (("HEAD" : String) = "HEAD" ∨ ("HEAD" : String) = "OPTIONS" ∨
      (some ⟨"feed", "r/"⟩ : Option ResolverMatch) = none) ∧
    perfCall emptyMetrics "HEAD" (some ⟨"feed", "r/"⟩) (fun _ => (3 : Nat)) 0 1 0
      = (emptyMetrics, 3) :=
  ⟨Or.inl rfl,
   perf_skip_no_record emptyMetrics "HEAD" (some ⟨"feed", "r/"⟩)
     (fun _ => (3 : Nat)) 0 1 0 (Or.inl rfl)⟩

/-! ### LongRequestMiddleware (middleware.py, class LongRequestMiddleware) -/

def threshold : ℚ := 15

/-- The data reported to the alerting collaborator (Sentry scope extras:
path, method and the measured duration). -/
structure SlowReport where
  path : String
  method : String
  duration : ℚ
deriving DecidableEq

/-- `LongRequestMiddleware.__call__`: measure the downstream handler's
duration; when it exceeds `threshold` report path, method and duration to
the alerting collaborator; always return the handler's response. -/
def longRequestCall {α : Type} (path method : String) (duration : ℚ)
    (get_response : Unit → α) : Option SlowReport × α :=
  (if threshold < duration then some ⟨path, method, duration⟩ else none,
   get_response ())

/-- C9: a slow-request report carrying the request's path, method and
duration is issued exactly when the measured duration exceeds the 15-second
threshold, and the downstream handler's response is returned unchanged in
all cases. -/
theorem slow_request_report_iff {α : Type} (path method : String)
    (duration : ℚ) (get_response : Unit → α) :
    (threshold < duration →
      (longRequestCall path method duration get_response).1
        = some ⟨path, method, duration⟩) ∧
    (¬ threshold < duration →
      (longRequestCall path method duration get_response).1 = none) ∧
    (longRequestCall path method duration get_response).2 = get_response () := by
  unfold longRequestCall
  refine ⟨fun h => ?_, fun h => ?_, rfl⟩
  · simp [h]
  · simp [h]

theorem slow_request_report_iff_witness :
    (threshold < 16 ∧
      (longRequestCall "/p" "GET" 16 (fun _ => (1 : Nat))).1
        = some ⟨"/p", "GET", 16⟩) ∧
    (¬ threshold < 14 ∧
      (longRequestCall "/p" "GET" 14 (fun _ => (1 : Nat))).1 = none) ∧
    (longRequestCall "/p" "GET" 14 (fun _ => (1 : Nat))).2 = 1 :=
  ⟨⟨by norm_num [threshold],
    (slow_request_report_iff "/p" "GET" 16 (fun _ => (1 : Nat))).1
      (by norm_num [threshold])⟩,
   ⟨by norm_num [threshold],
    (slow_request_report_iff "/p" "GET" 14 (fun _ => (1 : Nat))).2.1
      (by norm_num [threshold])⟩,
   (slow_request_report_iff "/p" "GET" 14 (fun _ => (1 : Nat))).2.2⟩

/-! ### TimeoutGuard and the Core Admission Pipeline (design document,
sections 4.2 and 4.3; the repository holds no code for them) -/

/-- Outcome of bounded execution (design document, section 3). -/
inductive TimeoutOutcome (α : Type) where
  | Completed (result : α)
  | TimedOut
  | Failed (error : String)
deriving DecidableEq

def defaultTimeout : ℚ := 20

/-- Modelled from the spec: src/ contains no TimeoutGuard (the repository has
no timeout middleware). Section 4.2 specifies `Execute(handler, request)`:
wait up to `timeout` for the handler; on completion within the deadline
return Completed with the handler's true result; on deadline exceeded return
TimedOut immediately, the handler's eventual result discarded; on the
handler raising any other error return Failed with the error captured. A
handler invocation is modelled by its wall-clock duration together with its
result, a value or a raised error. -/
def TimeoutGuard.Execute {α : Type} (timeout : ℚ) (duration : ℚ)
    (result : Except String α) : TimeoutOutcome α :=
  if timeout < duration then TimeoutOutcome.TimedOut
  else
    match result with
    | Except.ok r => TimeoutOutcome.Completed r
    | Except.error e => TimeoutOutcome.Failed e

/-- C7: Execute bounds handler execution by the wall-clock deadline: a
handler that does not complete within the timeout yields TimedOut, its
result discarded, while a handler completing within the timeout yields
Completed with the handler's true result. -/
theorem timeout_guard_bounds {α : Type} (timeout duration : ℚ)
    (result : Except String α) (r : α) :
    (timeout < duration →
      TimeoutGuard.Execute timeout duration result = TimeoutOutcome.TimedOut) ∧
    (duration ≤ timeout →
      TimeoutGuard.Execute timeout duration (Except.ok r)
        = TimeoutOutcome.Completed r) := by
  unfold TimeoutGuard.Execute
  constructor
  · intro h
    simp [h]
  · intro h
    simp [not_lt.mpr h]

theorem timeout_guard_bounds_witness :
    (defaultTimeout < defaultTimeout + 1 ∧
      TimeoutGuard.Execute defaultTimeout (defaultTimeout + 1)
          (Except.ok (5 : Nat)) = TimeoutOutcome.TimedOut) ∧
    (defaultTimeout - 1 ≤ defaultTimeout ∧
      TimeoutGuard.Execute defaultTimeout (defaultTimeout - 1)
          (Except.ok (5 : Nat)) = TimeoutOutcome.Completed 5) :=
  ⟨⟨by norm_num,
    (timeout_guard_bounds defaultTimeout (defaultTimeout + 1)
        (Except.ok (5 : Nat)) 5).1 (by norm_num)⟩,
   ⟨by norm_num [defaultTimeout],
    (timeout_guard_bounds defaultTimeout (defaultTimeout - 1)
        (Except.ok (5 : Nat)) 5).2 (by norm_num [defaultTimeout])⟩⟩

/-- Terminal results of the Core Admission Pipeline. -/
inductive PipelineResult (α : Type) where
  | response (r : α)
  | rateLimitError (error : String) (status : Nat)
  | serviceUnavailable (status : Nat)
deriving DecidableEq

/-- Modelled from the spec: src/ contains no Core Admission Pipeline.
Section 4.3 specifies `HandleRequest` as the composition of the
source-embedded rate-limiter admission call with TimeoutGuard.Execute: a
rejected request yields the 429 rate-limit error with no further
processing; otherwise the timeout outcome is mapped Completed to the
handler's result and TimedOut or Failed to a 503 service-unavailable
fallback. -/
def HandleRequest {α : Type} (st : RateLimitState) (clientID : String)
    (now timeout duration : ℚ) (handlerResult : Except String α) :
    RateLimitState × PipelineResult α :=
  match rateLimitCall st clientID now
      (fun _ => TimeoutGuard.Execute timeout duration handlerResult) with
  | (st', MiddlewareResponse.jsonError e s) =>
      (st', PipelineResult.rateLimitError e s)
  | (st', MiddlewareResponse.fromHandler outcome) =>
      (st',
        match outcome with
        | TimeoutOutcome.Completed r => PipelineResult.response r
        | TimeoutOutcome.TimedOut => PipelineResult.serviceUnavailable 503
        | TimeoutOutcome.Failed _ => PipelineResult.serviceUnavailable 503)

/-- C6: the pipeline always resolves every request locally into a terminal
well-formed result — the 429 rate-limit error, the handler's response, or
the 503 fallback — and a handler that raises never propagates past the
pipeline: its error is resolved into the 429 or 503 terminal outcome. -/
theorem pipeline_total {α : Type} (st : RateLimitState) (clientID : String)
    (now timeout duration : ℚ) (handlerResult : Except String α) :
    ((HandleRequest st clientID now timeout duration handlerResult).2
        = PipelineResult.rateLimitError "Rate limit exceeded" 429 ∨
      (∃ r, (HandleRequest st clientID now timeout duration handlerResult).2
        = PipelineResult.response r) ∨
      (HandleRequest st clientID now timeout duration handlerResult).2
        = PipelineResult.serviceUnavailable 503) ∧
    (∀ e, handlerResult = Except.error e →
      ((HandleRequest st clientID now timeout duration handlerResult).2
          = PipelineResult.rateLimitError "Rate limit exceeded" 429 ∨
        (HandleRequest st clientID now timeout duration handlerResult).2
          = PipelineResult.serviceUnavailable 503)) := by
  unfold HandleRequest rateLimitCall rejectResponse TimeoutGuard.Execute
  by_cases hd : RATE_LIMIT ≤
      (pruneWindow now (st.ip_request_counts clientID)).length
  · constructor
    · left
      simp [hd]
    · intro e _
      left
      simp [hd]
  · by_cases ht : timeout < duration
    · constructor
      · right
        right
        simp [hd, ht]
      · intro e he
        right
        simp [hd, ht]
    · cases handlerResult with
      | ok r =>
        constructor
        · right
          left
          refine ⟨r, ?_⟩
          simp [hd, ht]
        · intro e he
          exact absurd he (by simp)
      | error e =>
        constructor
        · right
          right
          simp [hd, ht]
        · intro e' _
          right
          simp [hd, ht]

theorem pipeline_total_witness :
    (Except.error "boom" = (Except.error "boom" : Except String Nat)) ∧
    ((HandleRequest initState "1.2.3.4" 0 defaultTimeout 5
        (Except.error "boom" : Except String Nat)).2
        = PipelineResult.rateLimitError "Rate limit exceeded" 429 ∨
      (HandleRequest initState "1.2.3.4" 0 defaultTimeout 5
        (Except.error "boom" : Except String Nat)).2
        = PipelineResult.serviceUnavailable 503) :=
  ⟨rfl,
   (pipeline_total initState "1.2.3.4" 0 defaultTimeout 5
       (Except.error "boom" : Except String Nat)).2 "boom" rfl⟩

end Middleware
